import Mathlib

/-!
# Verification of the objmap handle registry

Shallow embedding of `src/objmap/objmap.c` (revision with a `uint32_t`
key type, i.e. without `OBJMAP_USE_64BIT_KEYS`).

The registry (`ObjectMap`) holds a monotone key counter `top`, a hash
table from keys to stored object pointers, and an optional custom
deallocator.  The hash table is khash, an external dependency used only
through `kh_get` / `kh_put` / `kh_del` / iteration; we model it as an
association list with unique keys, where `kh_put` reports `rc = 0`
(the only return value `objmap_push` treats as failure) exactly when
the key is already present, matching khash's documented contract.

Pointers are modelled as natural numbers, with `0` playing the role of
`NULL`; `Option` wraps values where the C code may return `NULL` or
where a pointer argument may be `NULL`.  A result of `none` from a
function whose result type marks crashes denotes a dereference of a
null pointer (undefined behavior in the C source).
-/

namespace Objmap

/-- Object references (`void*`), modelled as addresses; `0` is `NULL`. -/
abbrev Obj := Nat

/-- Deallocator field: `none` models the `NULL` function pointer
(default `free`), `some f` a custom deallocation function identified
by `f`. -/
abbrev Dealloc := Option Nat

/-- `OBJMAP_KEY_LIMIT`: maximum value of the 32-bit key type
(`(objmap_key_t)-1`). -/
def OBJMAP_KEY_LIMIT : Nat := 2 ^ 32 - 1

/-- `OBJMAP_NULL`: the reserved null handle. -/
def OBJMAP_NULL : Nat := 0

/-- `OBJMAP_ERR_OVERFLOW = KEY_LIMIT - 0`. -/
def OBJMAP_ERR_OVERFLOW : Nat := OBJMAP_KEY_LIMIT

/-- `OBJMAP_ERR_INTERNAL = KEY_LIMIT - 1`. -/
def OBJMAP_ERR_INTERNAL : Nat := OBJMAP_KEY_LIMIT - 1

/-- `OBJMAP_MAX_INDEX = KEY_LIMIT - 2`: highest legal real handle. -/
def OBJMAP_MAX_INDEX : Nat := OBJMAP_KEY_LIMIT - 2

/-- khash lookup (`kh_get` followed by the `k == kh_end` test): first
binding of the key, if any. -/
def kh_find : List (Nat × Obj) → Nat → Option Obj
  | [], _ => none
  | (k, v) :: rest, key => if k = key then some v else kh_find rest key

/-- `kh_put` returns `rc = 0` (the failure value `objmap_push` checks
for) exactly when the key is already present. -/
def kh_mem (m : List (Nat × Obj)) (key : Nat) : Bool :=
  (kh_find m key).isSome

/-- khash `kh_del` at a key: removes the binding for that key (khash
tables never hold two bindings of one key, so deleting the iterator's
single entry and removing every binding of the key coincide). -/
def kh_del : List (Nat × Obj) → Nat → List (Nat × Obj)
  | [], _ => []
  | (k, v) :: rest, key =>
    if k = key then kh_del rest key else (k, v) :: kh_del rest key

/-- The `ObjectMap` struct: key counter `top`, backing hash table,
optional custom deallocator. -/
structure ObjectMap where
  top : Nat
  map : List (Nat × Obj)
  deallocator : Dealloc
  deriving DecidableEq, Repr

/-- `objmap_new`: counter starts at 1 (0 reserved), empty table, no
custom deallocator.  (The allocation-failure path returns `NULL` and
is not modelled; the registry below is the successful result.) -/
def objmap_new : ObjectMap :=
  { top := 1, map := [], deallocator := none }

/-- `objmap_set_deallocator`, modelled faithfully to the source line
`if (!om) om->deallocator = deallocator;`: when `om` is non-null the
condition is false and nothing is assigned; when `om` is `NULL` the
body dereferences the null pointer (crash, modelled as `none`). -/
def objmap_set_deallocator (om : Option ObjectMap) (_fn : Dealloc) :
    Option (Option ObjectMap) :=
  match om with
  | none => none
  | some r => some (some r)

/-- `Modelled from the spec:` the intended `set_deallocator` contract
(spec section 4.1), which the source's inverted guard fails to
implement: install `fn` on a valid registry. -/
def set_deallocator_spec (om : ObjectMap) (fn : Dealloc) : ObjectMap :=
  { om with deallocator := fn }

/-- `objmap_flush` on a valid registry: iterates the table, releases
every stored value (with `om->deallocator` when set, else `free`), and
deletes every entry.  `top` and `deallocator` are untouched. -/
def objmap_flush (om : ObjectMap) : ObjectMap :=
  { om with map := [] }

/-- The releases `objmap_flush` performs: each stored value is passed
to the installed deallocator (`none` = default `free`). -/
def flush_releases (om : ObjectMap) : List (Dealloc × Obj) :=
  om.map.map (fun p => (om.deallocator, p.2))

/-- `objmap_flush` including its `if (!om) return;` null guard. -/
def objmap_flush_c (om : Option ObjectMap) : Option ObjectMap :=
  match om with
  | none => none
  | some r => some (objmap_flush r)

/-- `objmap_reset`: null guard, then `om->top = 1` followed by
`objmap_flush(om)`. -/
def objmap_reset (om : ObjectMap) : ObjectMap :=
  objmap_flush { om with top := 1 }

/-- `objmap_reset` including its `if (!om) return;` null guard. -/
def objmap_reset_c (om : Option ObjectMap) : Option ObjectMap :=
  match om with
  | none => none
  | some r => some (objmap_reset r)

/-- `objmap_delete(ObjectMap **om_ptr)`.  Argument: `none` models a
`NULL` `om_ptr`; `some p` a valid pointer whose pointee is `p` (itself
`none` when `*om_ptr == NULL`).  Result: `none` models the crash of
`_m = MAP(om)` — the read of `om->map` at line 76, executed before any
check of `om` — when the pointee is `NULL`; otherwise `some` of the
pointer's view after the call (the pointee is overwritten with
`NULL`). -/
def objmap_delete (om_ptr : Option (Option ObjectMap)) :
    Option (Option (Option ObjectMap)) :=
  match om_ptr with
  | none => some none
  | some none => none
  | some (some _) => some (some none)

/-- `objmap_push`: overflow check against `OBJMAP_MAX_INDEX`, then
`key = om->top++` (32-bit increment), then `kh_put`; on `rc == 0` the
error path `kh_del`s the iterator (the pre-existing entry at `key`)
and returns `OBJMAP_ERR_INTERNAL`; otherwise the value is stored and
`key` returned. -/
def objmap_push (om : ObjectMap) (obj : Obj) : Nat × ObjectMap :=
  if OBJMAP_MAX_INDEX < om.top then (OBJMAP_ERR_OVERFLOW, om)
  else
    let key := om.top
    let om' : ObjectMap := { om with top := (om.top + 1) % 2 ^ 32 }
    if kh_mem om'.map key then
      (OBJMAP_ERR_INTERNAL, { om' with map := kh_del om'.map key })
    else
      (key, { om' with map := (key, obj) :: om'.map })

/-- `objmap_get`: pure lookup; `none` models the `NULL` return on a
missing handle. -/
def objmap_get (om : ObjectMap) (handle : Nat) : Option Obj :=
  kh_find om.map handle

/-- `objmap_pop`: lookup; on a hit, delete the entry and return the
stored value; on a miss return `NULL` with no state change. -/
def objmap_pop (om : ObjectMap) (handle : Nat) : Option Obj × ObjectMap :=
  match kh_find om.map handle with
  | none => (none, om)
  | some obj => (some obj, { om with map := kh_del om.map handle })

/-- Client operations on one registry, for trace-based properties.
`setDealloc` is routed through the (buggy) source function, which on a
valid registry never modifies it. -/
inductive Op where
  | push (obj : Obj)
  | pop (handle : Nat)
  | flush
  | reset
  deriving DecidableEq, Repr

/-- State transition of a single operation. -/
def applyOp (om : ObjectMap) : Op → ObjectMap
  | .push obj => (objmap_push om obj).2
  | .pop h => (objmap_pop om h).2
  | .flush => objmap_flush om
  | .reset => objmap_reset om

/-- Run a sequence of operations. -/
def runOps (om : ObjectMap) (ops : List Op) : ObjectMap :=
  ops.foldl applyOp om

/-- Handles returned by the successful pushes of a trace, in issuance
order (a push succeeded iff its result is `≤ OBJMAP_MAX_INDEX`). -/
def issuedHandles (om : ObjectMap) : List Op → List Nat
  | [] => []
  | op :: rest =>
    match op with
    | .push obj =>
      let r := objmap_push om obj
      if r.1 ≤ OBJMAP_MAX_INDEX then r.1 :: issuedHandles r.2 rest
      else issuedHandles r.2 rest
    | _ => issuedHandles (applyOp om op) rest

/-! ## Store lemmas -/

theorem kh_find_del_self (m : List (Nat × Obj)) (k : Nat) :
    kh_find (kh_del m k) k = none := by
  induction m with
  | nil => rfl
  | cons p rest ih =>
    obtain ⟨k', v⟩ := p
    by_cases hk : k' = k
    · simpa [kh_del, hk] using ih
    · simp [kh_del, kh_find, hk, ih]

theorem kh_find_del_ne (m : List (Nat × Obj)) (k' k : Nat) (hne : k' ≠ k) :
    kh_find (kh_del m k') k = kh_find m k := by
  induction m with
  | nil => rfl
  | cons p rest ih =>
    obtain ⟨k₀, v⟩ := p
    by_cases h₀ : k₀ = k'
    · subst h₀
      simp [kh_del, kh_find, hne, ih]
    · by_cases h₁ : k₀ = k
      · subst h₁
        simp [kh_del, kh_find, h₀, kh_find]
      · simp [kh_del, kh_find, h₀, h₁, ih]

theorem key_limit_eq : (2 : Nat) ^ 32 = 4294967296 := by norm_num

/-! ## `objmap_push` characterizations -/

theorem objmap_push_of_overflow (om : ObjectMap) (obj : Obj)
    (h : OBJMAP_MAX_INDEX < om.top) :
    objmap_push om obj = (OBJMAP_ERR_OVERFLOW, om) := by
  simp [objmap_push, h]

theorem top_succ_mod (om : ObjectMap) (h : om.top ≤ OBJMAP_MAX_INDEX) :
    (om.top + 1) % 2 ^ 32 = om.top + 1 := by
  have hm : OBJMAP_MAX_INDEX = 4294967293 := by decide
  rw [hm] at h
  apply Nat.mod_eq_of_lt
  rw [key_limit_eq]
  omega

theorem top_succ_lt (om : ObjectMap) (h : om.top ≤ OBJMAP_MAX_INDEX) :
    om.top + 1 < 4294967296 := by
  have hm : OBJMAP_MAX_INDEX = 4294967293 := by decide
  rw [hm] at h
  omega

theorem objmap_push_of_internal (om : ObjectMap) (obj : Obj)
    (hle : om.top ≤ OBJMAP_MAX_INDEX) (hmem : kh_mem om.map om.top = true) :
    objmap_push om obj =
      (OBJMAP_ERR_INTERNAL,
        { top := om.top + 1, map := kh_del om.map om.top,
          deallocator := om.deallocator }) := by
  have hnlt : ¬ OBJMAP_MAX_INDEX < om.top := not_lt.mpr hle
  simp [objmap_push, hnlt, hmem, top_succ_mod om hle, top_succ_lt om hle]

theorem objmap_push_of_free (om : ObjectMap) (obj : Obj)
    (hle : om.top ≤ OBJMAP_MAX_INDEX) (hmem : kh_mem om.map om.top = false) :
    objmap_push om obj =
      (om.top,
        { top := om.top + 1, map := (om.top, obj) :: om.map,
          deallocator := om.deallocator }) := by
  have hnlt : ¬ OBJMAP_MAX_INDEX < om.top := not_lt.mpr hle
  simp [objmap_push, hnlt, hmem, top_succ_mod om hle, top_succ_lt om hle]

theorem objmap_push_success (om : ObjectMap) (obj : Obj)
    (h : (objmap_push om obj).1 ≤ OBJMAP_MAX_INDEX) :
    om.top ≤ OBJMAP_MAX_INDEX ∧ kh_mem om.map om.top = false ∧
    objmap_push om obj =
      (om.top,
        { top := om.top + 1, map := (om.top, obj) :: om.map,
          deallocator := om.deallocator }) := by
  by_cases hof : OBJMAP_MAX_INDEX < om.top
  · rw [objmap_push_of_overflow om obj hof] at h
    have hno : ¬ OBJMAP_ERR_OVERFLOW ≤ OBJMAP_MAX_INDEX := by decide
    exact absurd h hno
  · have hle : om.top ≤ OBJMAP_MAX_INDEX := not_lt.mp hof
    by_cases hmem : kh_mem om.map om.top
    · rw [objmap_push_of_internal om obj hle hmem] at h
      have hni : ¬ OBJMAP_ERR_INTERNAL ≤ OBJMAP_MAX_INDEX := by decide
      exact absurd h hni
    · have hmem' : kh_mem om.map om.top = false := by
        simpa using hmem
      exact ⟨hle, hmem', objmap_push_of_free om obj hle hmem'⟩

/-! ## Trace lemmas -/

theorem top_le_push (om : ObjectMap) (obj : Obj) :
    om.top ≤ (objmap_push om obj).2.top := by
  by_cases hof : OBJMAP_MAX_INDEX < om.top
  · rw [objmap_push_of_overflow om obj hof]
  · have hle : om.top ≤ OBJMAP_MAX_INDEX := not_lt.mp hof
    by_cases hmem : kh_mem om.map om.top
    · rw [objmap_push_of_internal om obj hle hmem]
      exact Nat.le_succ _
    · have hmem' : kh_mem om.map om.top = false := by simpa using hmem
      rw [objmap_push_of_free om obj hle hmem']
      exact Nat.le_succ _

theorem top_le_pop (om : ObjectMap) (h : Nat) :
    om.top ≤ (objmap_pop om h).2.top := by
  unfold objmap_pop
  cases kh_find om.map h <;> simp

theorem top_le_applyOp (om : ObjectMap) (op : Op) (hop : op ≠ Op.reset) :
    om.top ≤ (applyOp om op).top := by
  cases op with
  | push obj => exact top_le_push om obj
  | pop h => exact top_le_pop om h
  | flush => exact le_refl _
  | reset => exact absurd rfl hop

theorem top_le_runOps (om : ObjectMap) (ops : List Op)
    (hres : Op.reset ∉ ops) : om.top ≤ (runOps om ops).top := by
  induction ops generalizing om with
  | nil => exact le_refl _
  | cons op rest ih =>
    have hop : op ≠ Op.reset := fun h => hres (h ▸ List.mem_cons_self op rest)
    have hrest : Op.reset ∉ rest := fun h => hres (List.mem_cons_of_mem op h)
    exact le_trans (top_le_applyOp om op hop) (ih (applyOp om op) hrest)

theorem issued_lower_bound (om : ObjectMap) (ops : List Op)
    (hres : Op.reset ∉ ops) :
    ∀ k ∈ issuedHandles om ops, om.top ≤ k := by
  induction ops generalizing om with
  | nil => intro k hk; exact absurd hk (by simp [issuedHandles])
  | cons op rest ih =>
    have hop : op ≠ Op.reset := fun h => hres (h ▸ List.mem_cons_self op rest)
    have hrest : Op.reset ∉ rest := fun h => hres (List.mem_cons_of_mem op h)
    intro k hk
    cases op with
    | push obj =>
      rw [issuedHandles] at hk
      by_cases hsucc : (objmap_push om obj).1 ≤ OBJMAP_MAX_INDEX
      · rw [if_pos hsucc] at hk
        rcases List.mem_cons.mp hk with heq | htail
        · obtain ⟨_, _, hchar⟩ := objmap_push_success om obj hsucc
          rw [hchar] at heq
          exact le_of_eq heq.symm
        · have := ih (objmap_push om obj).2 hrest k htail
          exact le_trans (top_le_push om obj) this
      · rw [if_neg hsucc] at hk
        have := ih (objmap_push om obj).2 hrest k hk
        exact le_trans (top_le_push om obj) this
    | pop h =>
      have hk' : k ∈ issuedHandles (applyOp om (Op.pop h)) rest := hk
      have := ih (applyOp om (Op.pop h)) hrest k hk'
      exact le_trans (top_le_applyOp om (Op.pop h) hop) this
    | flush =>
      have hk' : k ∈ issuedHandles (applyOp om Op.flush) rest := hk
      have := ih (applyOp om Op.flush) hrest k hk'
      exact le_trans (top_le_applyOp om Op.flush hop) this
    | reset => exact absurd rfl hop

theorem issued_upper_bound (om : ObjectMap) (ops : List Op)
    (hres : Op.reset ∉ ops) :
    ∀ k ∈ issuedHandles om ops, k < (runOps om ops).top := by
  induction ops generalizing om with
  | nil => intro k hk; exact absurd hk (by simp [issuedHandles])
  | cons op rest ih =>
    have hop : op ≠ Op.reset := fun h => hres (h ▸ List.mem_cons_self op rest)
    have hrest : Op.reset ∉ rest := fun h => hres (List.mem_cons_of_mem op h)
    intro k hk
    have hrun : runOps om (op :: rest) = runOps (applyOp om op) rest := rfl
    cases op with
    | push obj =>
      rw [issuedHandles] at hk
      by_cases hsucc : (objmap_push om obj).1 ≤ OBJMAP_MAX_INDEX
      · rw [if_pos hsucc] at hk
        rcases List.mem_cons.mp hk with heq | htail
        · obtain ⟨_, _, hchar⟩ := objmap_push_success om obj hsucc
          rw [hrun]
          have htop : (objmap_push om obj).2.top = om.top + 1 := by
            rw [hchar]
          have hfin : (objmap_push om obj).2.top ≤
              (runOps (objmap_push om obj).2 rest).top :=
            top_le_runOps (objmap_push om obj).2 rest hrest
          have hk' : k = om.top := by rw [hchar] at heq; exact heq
          calc k = om.top := hk'
            _ < om.top + 1 := Nat.lt_succ_self _
            _ = (objmap_push om obj).2.top := htop.symm
            _ ≤ _ := hfin
        · exact hrun ▸ ih (objmap_push om obj).2 hrest k htail
      · rw [if_neg hsucc] at hk
        exact hrun ▸ ih (objmap_push om obj).2 hrest k hk
    | pop h =>
      have hk' : k ∈ issuedHandles (applyOp om (Op.pop h)) rest := hk
      exact hrun ▸ ih (applyOp om (Op.pop h)) hrest k hk'
    | flush =>
      have hk' : k ∈ issuedHandles (applyOp om Op.flush) rest := hk
      exact hrun ▸ ih (applyOp om Op.flush) hrest k hk'
    | reset => exact absurd rfl hop

theorem issued_pairwise (om : ObjectMap) (ops : List Op)
    (hres : Op.reset ∉ ops) :
    List.Pairwise (fun a b => a < b) (issuedHandles om ops) := by
  induction ops generalizing om with
  | nil => exact List.Pairwise.nil
  | cons op rest ih =>
    have hop : op ≠ Op.reset := fun h => hres (h ▸ List.mem_cons_self op rest)
    have hrest : Op.reset ∉ rest := fun h => hres (List.mem_cons_of_mem op h)
    cases op with
    | push obj =>
      rw [issuedHandles]
      by_cases hsucc : (objmap_push om obj).1 ≤ OBJMAP_MAX_INDEX
      · rw [if_pos hsucc]
        refine List.Pairwise.cons ?_ (ih (objmap_push om obj).2 hrest)
        intro k hk
        obtain ⟨_, _, hchar⟩ := objmap_push_success om obj hsucc
        have hlb := issued_lower_bound (objmap_push om obj).2 rest hrest k hk
        have htop : (objmap_push om obj).2.top = om.top + 1 := by rw [hchar]
        have h1 : (objmap_push om obj).1 = om.top := by rw [hchar]
        rw [h1]
        rw [htop] at hlb
        omega
      · rw [if_neg hsucc]
        exact ih (objmap_push om obj).2 hrest
    | pop h =>
      show List.Pairwise (fun a b => a < b)
        (issuedHandles (applyOp om (Op.pop h)) rest)
      exact ih (applyOp om (Op.pop h)) hrest
    | flush =>
      show List.Pairwise (fun a b => a < b)
        (issuedHandles (applyOp om Op.flush) rest)
      exact ih (applyOp om Op.flush) hrest
    | reset => exact absurd rfl hop

theorem get_preserved_op (om : ObjectMap) (h : Nat) (o : Obj) (op : Op)
    (hget : objmap_get om h = some o) (hlt : h < om.top)
    (hpop : op ≠ Op.pop h) (hfl : op ≠ Op.flush) (hrs : op ≠ Op.reset) :
    objmap_get (applyOp om op) h = some o ∧ h < (applyOp om op).top := by
  cases op with
  | push obj =>
    show objmap_get (objmap_push om obj).2 h = some o ∧
      h < (objmap_push om obj).2.top
    have hne : om.top ≠ h := ne_of_gt hlt
    by_cases hof : OBJMAP_MAX_INDEX < om.top
    · rw [objmap_push_of_overflow om obj hof]
      exact ⟨hget, hlt⟩
    · have hle : om.top ≤ OBJMAP_MAX_INDEX := not_lt.mp hof
      by_cases hmem : kh_mem om.map om.top
      · rw [objmap_push_of_internal om obj hle hmem]
        refine ⟨?_, Nat.lt_succ_of_lt hlt⟩
        show kh_find (kh_del om.map om.top) h = some o
        rw [kh_find_del_ne om.map om.top h hne]
        exact hget
      · have hmem' : kh_mem om.map om.top = false := by simpa using hmem
        rw [objmap_push_of_free om obj hle hmem']
        refine ⟨?_, Nat.lt_succ_of_lt hlt⟩
        show kh_find ((om.top, obj) :: om.map) h = some o
        simpa [kh_find, hne] using hget
  | pop h' =>
    have hne : h' ≠ h := by
      intro he
      exact hpop (by rw [he])
    show objmap_get (objmap_pop om h').2 h = some o ∧
      h < (objmap_pop om h').2.top
    unfold objmap_pop
    cases hf : kh_find om.map h' with
    | none => exact ⟨hget, hlt⟩
    | some v =>
      refine ⟨?_, hlt⟩
      show kh_find (kh_del om.map h') h = some o
      rw [kh_find_del_ne om.map h' h hne]
      exact hget
  | flush => exact absurd rfl hfl
  | reset => exact absurd rfl hrs

theorem get_preserved_run (om : ObjectMap) (h : Nat) (o : Obj) (ops : List Op)
    (hget : objmap_get om h = some o) (hlt : h < om.top)
    (hops : ∀ op ∈ ops, op ≠ Op.pop h ∧ op ≠ Op.flush ∧ op ≠ Op.reset) :
    objmap_get (runOps om ops) h = some o := by
  induction ops generalizing om with
  | nil => exact hget
  | cons op rest ih =>
    obtain ⟨h1, h2, h3⟩ := hops op (List.mem_cons_self op rest)
    obtain ⟨hg, hl⟩ := get_preserved_op om h o op hget hlt h1 h2 h3
    exact ih (applyOp om op) hg hl
      (fun op' hop' => hops op' (List.mem_cons_of_mem op hop'))

/-! ## Claim theorems -/

/-- Claim C1 (evaluation at the failing input): on a non-null `om_ptr`
whose pointee was already overwritten with `NULL` by a prior destroy,
`objmap_delete` dereferences the null registry (the unguarded
`_m = MAP(om)` read of `om->map`), modelled by the crash result
`none` — refuting the claimed no-op; only a null `om_ptr` argument
itself is guarded and returns unchanged. -/
theorem objmap_delete_double_destroy_crashes :
    objmap_delete (some none) = none ∧ objmap_delete none = some none :=
  ⟨rfl, rfl⟩

/-- Claim C2 (evaluation at the failing input): for every non-null
registry and every deallocator value `fn`, the source
`objmap_set_deallocator` — whose guard reads `if (!om)` instead of
`if (om)` — returns with the registry completely unchanged, so `fn` is
never installed; the spec-modelled intended behavior
(`set_deallocator_spec`) does install it, exhibiting the divergence. -/
theorem objmap_set_deallocator_never_installs (r : ObjectMap) (fn : Dealloc) :
    objmap_set_deallocator (some r) fn = some (some r) ∧
    (set_deallocator_spec r fn).deallocator = fn :=
  ⟨rfl, rfl⟩

theorem objmap_set_deallocator_never_installs_witness :
    objmap_set_deallocator (some (ObjectMap.mk 1 [] none)) (some 8) =
      some (some (ObjectMap.mk 1 [] none)) ∧
    (set_deallocator_spec (ObjectMap.mk 1 [] none) (some 8)).deallocator =
      some 8 :=
  objmap_set_deallocator_never_installs (ObjectMap.mk 1 [] none) (some 8)

/-- Claim C3 counterexample: a registry whose store rejects the
insertion (khash `kh_put` reports `rc = 0`, key already present) is
not left unchanged by `objmap_push`: `top` was already incremented by
`key = om->top++` and is not rolled back, and the error path
`kh_del`s the pre-existing entry at the failed key. -/
theorem objmap_push_internal_changes_state :
    (objmap_push (ObjectMap.mk 5 [(5, 42)] none) 7).1 = OBJMAP_ERR_INTERNAL ∧
    (objmap_push (ObjectMap.mk 5 [(5, 42)] none) 7).2.top = 6 ∧
    (objmap_push (ObjectMap.mk 5 [(5, 42)] none) 7).2.map = [] ∧
    (objmap_push (ObjectMap.mk 5 [(5, 42)] none) 7).2 ≠
      ObjectMap.mk 5 [(5, 42)] none := by
  decide

/-- Claim C3 amended: when the store rejects the insertion,
`objmap_push` returns `OBJMAP_ERR_INTERNAL` without retaining the
object; `next_key` remains incremented by one (incremented once by
`om->top++`, never rolled back) and the store's previous entry at the
failed key is deleted by the error path. -/
theorem objmap_push_internal_amended (om : ObjectMap) (obj : Obj)
    (hle : om.top ≤ OBJMAP_MAX_INDEX) (hmem : kh_mem om.map om.top = true) :
    objmap_push om obj =
      (OBJMAP_ERR_INTERNAL,
        { top := om.top + 1, map := kh_del om.map om.top,
          deallocator := om.deallocator }) ∧
    objmap_get (objmap_push om obj).2 om.top = none := by
  have hc := objmap_push_of_internal om obj hle hmem
  refine ⟨hc, ?_⟩
  rw [hc]
  show kh_find (kh_del om.map om.top) om.top = none
  exact kh_find_del_self om.map om.top

theorem objmap_push_internal_amended_witness :
    objmap_push (ObjectMap.mk 9 [(9, 1)] (some 3)) 2 =
      (OBJMAP_ERR_INTERNAL, ObjectMap.mk 10 [] (some 3)) ∧
    objmap_get (objmap_push (ObjectMap.mk 9 [(9, 1)] (some 3)) 2).2 9 = none :=
  objmap_push_internal_amended (ObjectMap.mk 9 [(9, 1)] (some 3)) 2
    (by decide) (by decide)

/-- Claim C4: when `next_key` exceeds `OBJMAP_MAX_INDEX`,
`objmap_push` returns `OBJMAP_ERR_OVERFLOW` with the registry — both
`top` and the stored entries — unchanged. -/
theorem objmap_push_overflow_unchanged (om : ObjectMap) (obj : Obj)
    (hof : OBJMAP_MAX_INDEX < om.top) :
    objmap_push om obj = (OBJMAP_ERR_OVERFLOW, om) :=
  objmap_push_of_overflow om obj hof

theorem objmap_push_overflow_unchanged_witness :
    OBJMAP_MAX_INDEX < (ObjectMap.mk 4294967294 [] none).top ∧
    objmap_push (ObjectMap.mk 4294967294 [] none) 7 =
      (OBJMAP_ERR_OVERFLOW, ObjectMap.mk 4294967294 [] none) :=
  ⟨by decide,
    objmap_push_overflow_unchanged (ObjectMap.mk 4294967294 [] none) 7
      (by decide)⟩

/-- Claim C5: over any operation sequence without a reset, the handles
returned by the successful pushes are strictly increasing in issuance
order and pairwise distinct; in particular a handle freed by a pop or
a flush is never issued again, since every later handle is strictly
larger. -/
theorem objmap_issued_strictly_increasing (om : ObjectMap) (ops : List Op)
    (hres : Op.reset ∉ ops) :
    List.Pairwise (fun a b => a < b) (issuedHandles om ops) ∧
    (issuedHandles om ops).Nodup := by
  have hp := issued_pairwise om ops hres
  exact ⟨hp, hp.imp (fun hab => Nat.ne_of_lt hab)⟩

theorem objmap_issued_strictly_increasing_witness :
    List.Pairwise (fun a b => a < b)
      (issuedHandles objmap_new [Op.push 7, Op.push 8, Op.pop 1, Op.push 9]) ∧
    (issuedHandles objmap_new
      [Op.push 7, Op.push 8, Op.pop 1, Op.push 9]).Nodup :=
  objmap_issued_strictly_increasing objmap_new
    [Op.push 7, Op.push 8, Op.pop 1, Op.push 9] (by decide)

/-- Claim C6: a successful `objmap_push` of `o` returning handle `h`
makes `objmap_get` at `h` return `o`, and this persists across any
further operations as long as none of them is a pop of `h`, a flush,
or a reset. -/
theorem objmap_get_after_push (om : ObjectMap) (o : Obj) (ops : List Op)
    (hs : (objmap_push om o).1 ≤ OBJMAP_MAX_INDEX)
    (hops : ∀ op ∈ ops,
      op ≠ Op.pop (objmap_push om o).1 ∧ op ≠ Op.flush ∧ op ≠ Op.reset) :
    objmap_get (objmap_push om o).2 (objmap_push om o).1 = some o ∧
    objmap_get (runOps (objmap_push om o).2 ops)
      (objmap_push om o).1 = some o := by
  obtain ⟨hle, hmem, hchar⟩ := objmap_push_success om o hs
  have hget : objmap_get (objmap_push om o).2 (objmap_push om o).1 = some o := by
    rw [hchar]
    show kh_find ((om.top, o) :: om.map) om.top = some o
    simp [kh_find]
  have hlt : (objmap_push om o).1 < (objmap_push om o).2.top := by
    rw [hchar]
    exact Nat.lt_succ_self _
  exact ⟨hget, get_preserved_run (objmap_push om o).2 (objmap_push om o).1 o
    ops hget hlt hops⟩

theorem objmap_get_after_push_witness :
    objmap_get (objmap_push objmap_new 42).2 (objmap_push objmap_new 42).1 =
      some 42 ∧
    objmap_get (runOps (objmap_push objmap_new 42).2 [Op.push 43, Op.pop 2])
      (objmap_push objmap_new 42).1 = some 42 :=
  objmap_get_after_push objmap_new 42 [Op.push 43, Op.pop 2]
    (by decide) (by decide)

/-- Claim C7: `objmap_get` after `objmap_pop` on the same handle
always returns not-found, and when the pop itself reported not-found
the registry state is unchanged. -/
theorem objmap_pop_then_get (om : ObjectMap) (h : Nat) :
    objmap_get (objmap_pop om h).2 h = none ∧
    ((objmap_pop om h).1 = none → (objmap_pop om h).2 = om) := by
  unfold objmap_pop
  cases hf : kh_find om.map h with
  | none => exact ⟨hf, fun _ => rfl⟩
  | some v =>
    refine ⟨?_, fun hc => Option.noConfusion hc⟩
    show kh_find (kh_del om.map h) h = none
    exact kh_find_del_self om.map h

theorem objmap_pop_then_get_witness :
    objmap_get (objmap_pop objmap_new 5).2 5 = none ∧
    ((objmap_pop objmap_new 5).1 = none →
      (objmap_pop objmap_new 5).2 = objmap_new) :=
  objmap_pop_then_get objmap_new 5

/-- Claim C8: `objmap_flush` empties the store — `objmap_get` returns
not-found for every handle afterwards — while leaving `top` unchanged,
so the next successful push returns a handle strictly larger than
every handle issued before the flush. -/
theorem objmap_flush_retires_handles (om : ObjectMap) (ops : List Op)
    (o : Obj) (h k : Nat) (hres : Op.reset ∉ ops)
    (hk : k ∈ issuedHandles om ops)
    (hs : (objmap_push (objmap_flush (runOps om ops)) o).1 ≤ OBJMAP_MAX_INDEX) :
    objmap_get (objmap_flush (runOps om ops)) h = none ∧
    (objmap_flush (runOps om ops)).top = (runOps om ops).top ∧
    k < (objmap_push (objmap_flush (runOps om ops)) o).1 := by
  refine ⟨rfl, rfl, ?_⟩
  obtain ⟨hle, hmem, hchar⟩ :=
    objmap_push_success (objmap_flush (runOps om ops)) o hs
  have h1 : (objmap_push (objmap_flush (runOps om ops)) o).1 =
      (runOps om ops).top := by
    rw [hchar]
    rfl
  rw [h1]
  exact issued_upper_bound om ops hres k hk

theorem objmap_flush_retires_handles_witness :
    objmap_get (objmap_flush (runOps objmap_new [Op.push 7])) 1 = none ∧
    (objmap_flush (runOps objmap_new [Op.push 7])).top =
      (runOps objmap_new [Op.push 7]).top ∧
    1 < (objmap_push (objmap_flush (runOps objmap_new [Op.push 7])) 9).1 :=
  objmap_flush_retires_handles objmap_new [Op.push 7] 9 1 1
    (by decide) (by decide) (by decide)

/-- Claim C9: `objmap_reset` empties the store and resets `top` to 1,
so the next push (necessarily successful) returns handle 1. -/
theorem objmap_reset_restarts (om : ObjectMap) (o : Obj) :
    (objmap_reset om).top = 1 ∧ (objmap_reset om).map = [] ∧
    (objmap_push (objmap_reset om) o).1 = 1 := by
  refine ⟨rfl, rfl, ?_⟩
  have hle : (objmap_reset om).top ≤ OBJMAP_MAX_INDEX := by
    show (1 : Nat) ≤ OBJMAP_MAX_INDEX
    decide
  have hmem : kh_mem (objmap_reset om).map (objmap_reset om).top = false := rfl
  rw [objmap_push_of_free (objmap_reset om) o hle hmem]
  rfl

theorem objmap_reset_restarts_witness :
    (objmap_reset (ObjectMap.mk 7 [(3, 4)] none)).top = 1 ∧
    (objmap_reset (ObjectMap.mk 7 [(3, 4)] none)).map = [] ∧
    (objmap_push (objmap_reset (ObjectMap.mk 7 [(3, 4)] none)) 6).1 = 1 :=
  objmap_reset_restarts (ObjectMap.mk 7 [(3, 4)] none) 6

/-- Claim C10: `objmap_flush` and `objmap_reset`, called with a null
registry pointer, hit the `if (!om) return;` guard and return
immediately with no dereference and no state change. -/
theorem objmap_flush_reset_null_guard :
    objmap_flush_c none = none ∧ objmap_reset_c none = none :=
  ⟨rfl, rfl⟩

end Objmap
